import Mathlib

/-!
Shallow embedding of the meshcore-cli-rs command layer (src/src), for checking
the natural-language specification against the code.

Conventions of the embedding:
* Rust `String`/`&str` values are `List Char` (`Str` below).  `eq_ignore_ascii_case`
  and `to_lowercase` are modelled at the ASCII level (the inputs the code compares
  are ASCII names and hex strings, where Unicode and ASCII lowering coincide).
* `HashMap<K, V>` fields of `SessionState` are association lists with unique keys
  in insertion order; `insert` replaces in place, `remove` deletes the key's
  entries, `get` returns the first binding.  Iteration order of a Rust `HashMap`
  is unspecified, so any fixed order is a faithful refinement.
* Machine integers: `u32` values are `Nat` (with `% 2^32` where Rust arithmetic
  can wrap, and `Nat` truncated subtraction for `saturating_sub`); `i8` values are
  `Int` with explicit wrapping (`wrap8`) where the code increments/decrements.
* Async time is not modelled numerically: a `wait` is given the list of events
  that its subscription delivers before the deadline would fire, plus a flag
  saying whether the upstream stream closes (recv yields `None`) before the
  deadline.  Device calls made by a command are oracles: their outcomes are
  parameters, and the calls a command performs are recorded in its result.
-/

/-- Rust string, as a list of characters. -/
abbrev Str := List Char

/-- ASCII lowering of one character (Rust `u8::to_ascii_lowercase`). -/
def asciiToLower (c : Char) : Char :=
  if 'A' ≤ c ∧ c ≤ 'Z' then Char.ofNat (c.toNat + 32) else c

/-- Rust `str::eq_ignore_ascii_case`: equality after ASCII lowering. -/
def eqIgnoreAsciiCase (s t : Str) : Bool :=
  s.map asciiToLower == t.map asciiToLower

/-- Rust `str::to_lowercase`, modelled at ASCII (coincides on ASCII input). -/
def toLowercase (s : Str) : Str :=
  s.map asciiToLower

/-- `pre` is a prefix of `s` (Rust `str::starts_with`). -/
def startsWithL (s pre : Str) : Bool :=
  match pre, s with
  | [], _ => true
  | _ :: _, [] => false
  | p :: ps, c :: cs => c == p && startsWithL cs ps

/-- Rust `str::strip_prefix`: the remainder of `s` after `pre`, when `pre` leads. -/
def stripPfx (pre s : Str) : Option Str :=
  match pre, s with
  | [], s => some s
  | _ :: _, [] => none
  | p :: ps, c :: cs => if c = p then stripPfx ps cs else none

/-- Rust `str::strip_suffix` for a single-character suffix. -/
def stripSfx (c : Char) (s : Str) : Option Str :=
  match s.reverse with
  | [] => none
  | x :: rest => if x = c then some rest.reverse else none

/-- Rust `str::trim` (Unicode whitespace, modelled by `Char.isWhitespace`). -/
def trimL (s : Str) : Str :=
  ((s.dropWhile Char.isWhitespace).reverse.dropWhile Char.isWhitespace).reverse

/-- Rust `str::split(',')`-like splitting: the pieces between occurrences of `sep`. -/
def splitOnC (sep : Char) : Str → List Str
  | [] => [[]]
  | c :: rest =>
    if c = sep then [] :: splitOnC sep rest
    else
      match splitOnC sep rest with
      | [] => [[c]]
      | part :: parts => (c :: part) :: parts

/-- Rust `str::trim_start_matches` for a single character. -/
def trimStartMatches (c : Char) (s : Str) : Str :=
  s.dropWhile (· = c)

/-- Rust `str::trim_end_matches` for a single character. -/
def trimEndMatches (c : Char) (s : Str) : Str :=
  (s.reverse.dropWhile (· = c)).reverse

/-- Rust `str::split_whitespace`: maximal runs of non-whitespace characters. -/
def splitWsGo (cur : Str) : Str → List Str
  | [] => if cur = [] then [] else [cur.reverse]
  | c :: rest =>
    if c.isWhitespace then
      if cur = [] then splitWsGo [] rest else cur.reverse :: splitWsGo [] rest
    else splitWsGo (c :: cur) rest

/-- Rust `str::split_whitespace`, entry point. -/
def splitWs (s : Str) : List Str :=
  splitWsGo [] s

/-- Rust `[String]::join(" ")`. -/
def joinWords : List Str → Str
  | [] => []
  | [w] => w
  | w :: rest => w ++ ' ' :: joinWords rest

/-- Digit-string parse helper shared by the numeric parsers. -/
def parseDigits? (s : Str) : Option Nat :=
  if s = [] then none
  else if s.all Char.isDigit then
    some (s.foldl (fun a c => a * 10 + (c.toNat - 48)) 0)
  else none

/-- Rust `str::parse::<u32>()` (optional leading `+`; overflow fails). -/
def parseU32? (s : Str) : Option Nat :=
  let t := match s with | '+' :: rest => rest | _ => s
  (parseDigits? t).bind fun n => if n < 4294967296 then some n else none

/-- Rust `str::parse::<u8>()`. -/
def parseU8? (s : Str) : Option Nat :=
  let t := match s with | '+' :: rest => rest | _ => s
  (parseDigits? t).bind fun n => if n < 256 then some n else none

/-- Rust `str::parse::<i8>()`. -/
def parseI8? (s : Str) : Option Int :=
  match s with
  | '-' :: rest => (parseDigits? rest).bind fun n =>
      if n ≤ 128 then some (-(n : Int)) else none
  | '+' :: rest => (parseDigits? rest).bind fun n =>
      if n ≤ 127 then some (n : Int) else none
  | _ => (parseDigits? s).bind fun n =>
      if n ≤ 127 then some (n : Int) else none

/-- Wrapping an `Int` into the `i8` range (release-mode Rust overflow). -/
def wrap8 (z : Int) : Int :=
  (z + 128).emod 256 - 128

/-- Lowercase hex digit for a nibble. -/
def hexDigit (n : Nat) : Char :=
  if n < 10 then Char.ofNat (48 + n) else Char.ofNat (87 + n % 16)

/-- `PublicKey::to_hex` / `hex::encode`: lowercase hex of a byte list. -/
def toHex (bytes : List Nat) : Str :=
  bytes.flatMap fun b => [hexDigit (b / 16 % 16), hexDigit (b % 16)]

/-- `CliError` from src/src/error.rs.  Payloads of wrapped external error types
(`meshcore::Error`, `std::io::Error`, `serde_json::Error`) are modelled as their
display strings. -/
inductive CliError where
  | connection (msg : Str)
  | serial (msg : Str)
  | command (msg : Str)
  | contactNotFound (msg : Str)
  | channelNotFound (msg : Str)
  | invalidArgument (msg : Str)
  | timeout (msg : Str)
  | io (msg : Str)
  | json (msg : Str)
  | script (line : Nat) (message : Str)
deriving DecidableEq, Repr

/-- `meshcore::types::ContactType` (external collaborator type used by src). -/
inductive ContactType where
  | unknown
  | node
  | repeater
  | room
deriving DecidableEq, Repr

/-- The numeric code the CLI assigns to a contact type (src/src/commands/device.rs,
contacts.rs: `match c.device_type { Unknown => 0, Node => 1, Repeater => 2, Room => 3 }`). -/
def ctypeCode : ContactType → Nat
  | .unknown => 0
  | .node => 1
  | .repeater => 2
  | .room => 3

/-- `meshcore::types::Contact` (external collaborator type), restricted to the
fields the CLI code under src/src reads: name, public key bytes, device type,
outbound path length (`i8`), and last-modified timestamp (`u32`). -/
structure Contact where
  name : Str
  public_key : List Nat
  device_type : ContactType
  out_path_len : Int
  last_modified : Nat
deriving DecidableEq, Repr

/-- `meshcore::event::Event` (external collaborator type), restricted to the
variants the CLI code under src/src matches on. -/
inductive Event where
  | contactMessage (sender_pfx : List Nat) (text : Str)
  | channelMessage (channel_index : Nat) (text : Str)
  | ack (code : Nat)
  | advertisement (key : List Nat)
  | newContactAdvert (contact : Contact)
  | loginSuccess
  | loginFailed
  | messagesWaiting
  | noMoreMessages
  | messageSent (expected_ack : Nat) (timeout_ms : Nat)
  | okEvent
  | error (message : Str)
deriving DecidableEq, Repr

/-- `PendingContact` from src/src/config.rs. -/
structure PendingContact where
  public_key : Str
  name : Option Str
  contact : Option Contact
deriving DecidableEq, Repr

/-- Association-list map with `HashMap`-style operations (see file header). -/
abbrev HMap (β : Type) := List (Str × β)

/-- `HashMap::insert`: replace the binding in place, or append a new one. -/
def insertA {β : Type} (k : Str) (v : β) : HMap β → HMap β
  | [] => [(k, v)]
  | (k', v') :: rest =>
    if k' = k then (k, v) :: rest else (k', v') :: insertA k v rest

/-- `HashMap::get`: the first binding of `k`. -/
def getA {β : Type} (k : Str) : HMap β → Option β
  | [] => none
  | (k', v') :: rest => if k' = k then some v' else getA k rest

/-- `HashMap::remove`: drop the bindings of `k` (on the unique-key invariant this
is the single entry Rust removes). -/
def eraseA {β : Type} (k : Str) (m : HMap β) : HMap β :=
  m.filter fun kv => kv.1 ≠ k

/-- `HashMap::values` in iteration order. -/
def valuesA {β : Type} (m : HMap β) : List β :=
  m.map (·.2)

/-- `SessionState` from src/src/config.rs. -/
structure SessionState where
  device_name : Option Str
  current_contact : Option Str
  previous_contact : Option Str
  last_sender : Option Str
  logged_in : HMap Bool
  pending_contacts : HMap PendingContact
  flood_scope : Option Str
  contact_timeouts : HMap Nat
deriving DecidableEq, Repr

/-- `SessionState::new` / `Default::default`. -/
def SessionState.new : SessionState :=
  ⟨none, none, none, none, [], [], none, []⟩

/-- `SessionState::set_contact`: if the new value differs, the old current moves
to previous. -/
def set_contact (st : SessionState) (contact : Option Str) : SessionState :=
  if st.current_contact ≠ contact then
    { st with previous_contact := st.current_contact, current_contact := contact }
  else st

/-- `SessionState::swap_contacts`. -/
def swap_contacts (st : SessionState) : SessionState :=
  { st with current_contact := st.previous_contact
          , previous_contact := st.current_contact }

/-- `SessionState::is_logged_in`: stored flag, default `false`. -/
def is_logged_in (st : SessionState) (name : Str) : Bool :=
  (getA name st.logged_in).getD false

/-- `SessionState::set_logged_in`. -/
def set_logged_in (st : SessionState) (name : Str) (b : Bool) : SessionState :=
  { st with logged_in := insertA name b st.logged_in }

/-- `SessionState::add_pending`: key-only upsert, `contact` field set to `None`. -/
def add_pending (st : SessionState) (public_key : Str) (name : Option Str) :
    SessionState :=
  { st with pending_contacts :=
      insertA public_key ⟨public_key, name, none⟩ st.pending_contacts }

/-- `SessionState::add_pending_contact`: upsert with the full contact payload. -/
def add_pending_contact (st : SessionState) (c : Contact) : SessionState :=
  let public_key := toHex c.public_key
  { st with pending_contacts :=
      insertA public_key ⟨public_key, some c.name, some c⟩ st.pending_contacts }

/-- The inline `state.pending_contacts.remove(&key)` performed by
`cmd_add_pending` (src/src/commands/contacts.rs line 463). -/
def remove_pending (st : SessionState) (public_key : Str) : SessionState :=
  { st with pending_contacts := eraseA public_key st.pending_contacts }

/-- `SessionState::clear_pending`. -/
def clear_pending (st : SessionState) : SessionState :=
  { st with pending_contacts := [] }

/-- `SessionState::get_timeout`: stored override or the supplied default. -/
def get_timeout (st : SessionState) (contact : Str) (default : Nat) : Nat :=
  (getA contact st.contact_timeouts).getD default

/-- The inline `state.contact_timeouts.insert(name, timeout)` performed by
`cmd_contact_timeout` (src/src/commands/contacts.rs line 90). -/
def set_timeout (st : SessionState) (name : Str) (timeout : Nat) : SessionState :=
  { st with contact_timeouts := insertA name timeout st.contact_timeouts }

/-- `meshcore::event::EventFilter` (external collaborator type).  Modelled from
the spec: "a predicate over an Event's category", applied by `matches`. -/
abbrev EventFilter := Event → Bool

/-- The inner `loop` of `CommandContext::wait_for_event`
(src/src/commands/mod.rs lines 107-115): repeatedly `recv` from the
subscription; a matching event is returned, a non-matching one is discarded,
and `None` (stream closed) ends the loop with `none`.  `arrivals` is the list
of events the subscription delivers before the deadline. -/
def recvLoop (filter : EventFilter) : List Event → Option Event
  | [] => none
  | e :: rest => if filter e then some e else recvLoop filter rest

/-- The value of `tokio::time::timeout(timeout, loop).await` in
`wait_for_event`: `none` models `Err(Elapsed)` (the deadline fired with the
stream still open and no match delivered), `some none` models `Ok(None)` (the
stream closed before the deadline with no match), `some (some e)` models
`Ok(Some(e))`.  `closed` says whether the upstream stream closes before the
deadline once `arrivals` is exhausted. -/
def waitRace (filter : EventFilter) (arrivals : List Event) (closed : Bool) :
    Option (Option Event) :=
  match recvLoop filter arrivals with
  | some e => some (some e)
  | none => if closed then some none else none

/-- `CommandContext::wait_for_event` (src/src/commands/mod.rs lines 103-123):
the final `match` maps `Ok(Some(event))` to `Ok(event)` and both `Ok(None)`
and `Err(_)` to `Err(CliError::Timeout("event"))`. -/
def wait_for_event (filter : EventFilter) (arrivals : List Event)
    (closed : Bool) : Except CliError Event :=
  match waitRace filter arrivals closed with
  | some (some event) => .ok event
  | some none => .error (.timeout ['e','v','e','n','t'])
  | none => .error (.timeout ['e','v','e','n','t'])

/-- `CommandContext::get_contact` (src/src/commands/mod.rs lines 73-95):
exact case-insensitive name match first, then case-insensitive hex
public-key-prefix match, else `ContactNotFound`.  `contacts` is the cached
directory snapshot in iteration order. -/
def get_contact (contacts : List Contact) (name_or_key : Str) :
    Except CliError Contact :=
  match contacts.find? (fun c => eqIgnoreAsciiCase c.name name_or_key) with
  | some contact => .ok contact
  | none =>
    let pfx := toLowercase name_or_key
    match contacts.find? (fun c => startsWithL (toHex c.public_key) pfx) with
    | some contact => .ok contact
    | none => .error (.contactNotFound name_or_key)

/-- `lookup_sender_name` (src/src/commands/mod.rs lines 174-183). -/
def lookup_sender_name (contacts : List Contact) (sender_pfx : List Nat) : Str :=
  let pfxHex := toHex sender_pfx
  match contacts.find? (fun c => startsWithL (toHex c.public_key) pfxHex) with
  | some c => c.name
  | none => pfxHex

/-- `parse_time_value` (src/src/commands/mod.rs lines 152-169).  The `u32`
multiplications wrap modulo `2^32` (release-mode Rust). -/
def parse_time_value (s : Str) : Nat :=
  let s := trimL s
  if s = [] then 0
  else match stripSfx 'd' s with
  | some num => (parseU32? num).getD 0 * 86400 % 4294967296
  | none =>
  match stripSfx 'h' s with
  | some num => (parseU32? num).getD 0 * 3600 % 4294967296
  | none =>
  match stripSfx 'm' s with
  | some num => (parseU32? num).getD 0 * 60 % 4294967296
  | none =>
  match stripSfx 's' s with
  | some num => (parseU32? num).getD 0
  | none => (parseU32? s).getD 0

/-- The mutable filter criteria of `cmd_apply_to`
(src/src/commands/device.rs lines 830-834). -/
structure FilterCriteria where
  contact_type : Option Nat
  min_hops : Option Int
  max_hops : Option Int
  upd_before : Option Nat
  upd_after : Option Nat
deriving DecidableEq, Repr

/-- The initial (all-`None`) criteria. -/
def FilterCriteria.init : FilterCriteria :=
  ⟨none, none, none, none, none⟩

/-- One iteration of the filter-parsing loop of `cmd_apply_to`
(src/src/commands/device.rs lines 842-869), updating the criteria from one
comma-separated clause. -/
def parseClause (now : Nat) (crit : FilterCriteria) (raw : Str) : FilterCriteria :=
  let part := trimL raw
  if part = [] ∨ part = ['a','l','l'] then crit
  else match stripPfx ['t','='] part with
  | some val => { crit with contact_type := parseU8? val }
  | none =>
  if part = ['d'] then { crit with min_hops := some 0 }
  else if part = ['f'] then { crit with max_hops := some (-1) }
  else match stripPfx ['h','>'] part with
  | some val => { crit with min_hops := (parseI8? val).map (fun v => wrap8 (v + 1)) }
  | none =>
  match stripPfx ['h','<'] part with
  | some val => { crit with max_hops := (parseI8? val).map (fun v => wrap8 (v - 1)) }
  | none =>
  match stripPfx ['h','='] part with
  | some val =>
    let parsed := parseI8? val
    { crit with min_hops := parsed, max_hops := parsed }
  | none =>
  match stripPfx ['u','<'] part with
  | some val => { crit with upd_before := some (now - parse_time_value val) }
  | none =>
  match stripPfx ['u','>'] part with
  | some val => { crit with upd_after := some (now - parse_time_value val) }
  | none => crit

/-- The whole filter-parsing loop of `cmd_apply_to` over `filter.split(',')`. -/
def parseFilterCriteria (now : Nat) (filter : Str) : FilterCriteria :=
  (splitOnC ',' filter).foldl (parseClause now) FilterCriteria.init

/-- The `matching.retain(...)` closure of `cmd_apply_to`
(src/src/commands/device.rs lines 872-906): a contact passes when every
supplied criterion holds. -/
def matchesCriteria (crit : FilterCriteria) (c : Contact) : Bool :=
  let ctype := ctypeCode c.device_type
  (match crit.contact_type with
   | some t => ctype == t
   | none => true) &&
  (match crit.min_hops with
   | some mn => !(c.out_path_len < mn)
   | none => true) &&
  (match crit.max_hops with
   | some mx => !(c.out_path_len > mx)
   | none => true) &&
  (match crit.upd_before with
   | some before => !(c.last_modified ≥ before)
   | none => true) &&
  (match crit.upd_after with
   | some after => !(c.last_modified ≤ after)
   | none => true)

/-- The matched set of `cmd_apply_to`: the directory snapshot filtered by the
parsed criteria (order preserved, as `Vec::retain` preserves order). -/
def applyToMatches (filter : Str) (now : Nat) (contacts : List Contact) :
    List Contact :=
  contacts.filter (matchesCriteria (parseFilterCriteria now filter))

/-- What happened to one matched contact during bulk dispatch. -/
inductive ApplyOutcome where
  | applied
  | failedReported (e : CliError)
  | skippedWarning
deriving DecidableEq, Repr

/-- Outcomes of the per-contact sub-commands `cmd_apply_to` can invoke
(`cmd_remove_contact`, `cmd_msg`, `cmd_cmd`): device interactions, supplied as
oracles. -/
structure ApplyOracles where
  execRemove : Contact → Except CliError Unit
  execMsg : Contact → Str → Except CliError Unit
  execCmd : Contact → List Str → Except CliError Unit

/-- One iteration of the dispatch loop of `cmd_apply_to`
(src/src/commands/device.rs lines 912-950): pick the sub-command by prefix
rules on the joined command text; an `Err` from the sub-command is printed and
becomes `failedReported`; a non-Repeater/Room contact given an arbitrary
repeater command is `skippedWarning`. -/
def dispatchContact (cmdLine : Str) (o : ApplyOracles) (contact : Contact) :
    ApplyOutcome :=
  if cmdLine = ['r','e','m','o','v','e','_','c','o','n','t','a','c','t'] then
    match o.execRemove contact with
    | .ok _ => .applied
    | .error e => .failedReported e
  else if startsWithL cmdLine ['s','e','n','d',' '] ∨ cmdLine.head? = some '"' then
    let msg :=
      match stripPfx ['s','e','n','d',' '] cmdLine with
      | some stripped => stripped
      | none => trimEndMatches '"' (trimStartMatches '"' cmdLine)
    match o.execMsg contact msg with
    | .ok _ => .applied
    | .error e => .failedReported e
  else if contact.device_type = ContactType.repeater ∨
          contact.device_type = ContactType.room then
    match o.execCmd contact (splitWs cmdLine) with
    | .ok _ => .applied
    | .error e => .failedReported e
  else
    .skippedWarning

/-- The dispatch loop of `cmd_apply_to` over the matched contacts, recording
each contact with its outcome in iteration order. -/
def applyLoop (cmdLine : Str) (o : ApplyOracles) : List Contact →
    List (Contact × ApplyOutcome)
  | [] => []
  | c :: rest => (c, dispatchContact cmdLine o c) :: applyLoop cmdLine o rest

/-- The result of `cmd_apply_to`: the per-contact trace, the count printed at
the end, and the overall return value. -/
structure ApplyReport where
  trace : List (Contact × ApplyOutcome)
  count : Nat
  result : Except CliError Unit
deriving Repr

/-- `CommandContext::cmd_apply_to` (src/src/commands/device.rs lines 818-954):
snapshot the directory, parse the filter, retain the matches, compute the
count, dispatch the joined sub-command to each match, then report the count
and return `Ok(())`. -/
def cmd_apply_to (filter : Str) (commands : List Str) (now : Nat)
    (contacts : List Contact) (o : ApplyOracles) : ApplyReport :=
  let matching := applyToMatches filter now contacts
  let cmdLine := joinWords commands
  let count := matching.length
  { trace := applyLoop cmdLine o matching
  , count := count
  , result := .ok () }

/-- User-visible output lines a command produces through `Display`/`println`. -/
inductive Output where
  | msgSent (expected_ack : Nat) (timeout_ms : Nat)
  | okOut (msg : Str)
  | errOut (msg : Str)
  | warnOut (msg : Str)
  | ackOut (code : Nat)
deriving DecidableEq, Repr

/-- A device-client call a command performs (recorded, since the wire side is
an external collaborator). -/
inductive DeviceCall where
  | updateContact (contact : Contact)
deriving DecidableEq, Repr

/-- `EventFilter::packet_types(vec![LoginSuccess, LoginFailed])` used by
`cmd_login`.  Modelled from the spec: an `EventFilter` is "a predicate over an
Event's category ('one of these packet kinds')". -/
def loginFilter : EventFilter := fun e =>
  match e with
  | .loginSuccess => true
  | .loginFailed => true
  | _ => false

/-- `EventFilter::packet_types(vec![PacketType::Ack])` used by `cmd_wait_ack`.
Modelled from the spec, as for `loginFilter`. -/
def ackFilter : EventFilter := fun e =>
  match e with
  | .ack _ => true
  | _ => false

/-- `CommandContext::cmd_login` (src/src/commands/repeater.rs lines 13-59).
`sendResult` is the outcome of the `send_login` device call (an oracle);
`arrivals`/`closed` feed the inner `wait_for_event` as in the file header.
The numeric timeout (`get_timeout state contact.name 30`) only scales the
real-time wait and is absorbed into `arrivals`.  Returns the final session
state, the printed outputs, and the command's return value. -/
def cmd_login (st : SessionState) (dir : List Contact) (name _password : Str)
    (sendResult : Except CliError Event) (arrivals : List Event)
    (closed : Bool) : SessionState × List Output × Except CliError Unit :=
  match get_contact dir name with
  | .error e => (st, [], .error e)
  | .ok contact =>
    match sendResult with
    | .error e => (st, [], .error e)
    | .ok (Event.messageSent expected_ack timeout_ms) =>
      let sent := Output.msgSent expected_ack timeout_ms
      match wait_for_event loginFilter arrivals closed with
      | .ok Event.loginSuccess =>
        (set_logged_in st contact.name true,
         [sent, .okOut ['L','o','g','i','n',' ','s','u','c','c','e','s','s']],
         .ok ())
      | .ok Event.loginFailed =>
        (st, [sent, .errOut ['L','o','g','i','n',' ','f','a','i','l','e','d']],
         .ok ())
      | .ok _ => (st, [sent], .ok ())
      | .error _ =>
        (st, [sent, .warnOut (String.toList "Login response timeout")], .ok ())
    | .ok (Event.error message) => (st, [], .error (.command message))
    | .ok _ => (st, [], .ok ())

/-- `CommandContext::cmd_wait_ack` (src/src/commands/messaging.rs lines 55-72). -/
def cmd_wait_ack (arrivals : List Event) (closed : Bool) :
    List Output × Except CliError Unit :=
  match wait_for_event ackFilter arrivals closed with
  | .ok (Event.ack code) => ([Output.ackOut code], .ok ())
  | .ok _ => ([], .error (.timeout ['A','C','K']))
  | .error e => ([], .error e)

/-- `CommandContext::cmd_msg` (src/src/commands/messaging.rs lines 13-52).
`sendResult` is the outcome of the `send_message` device call (an oracle);
when `wait` is set, `arrivals`/`closed` feed `cmd_wait_ack`'s inner
`wait_for_event`. -/
def cmd_msg (st : SessionState) (dir : List Contact) (name : Str)
    (_message : List Str) (wait : Bool) (sendResult : Except CliError Event)
    (arrivals : List Event) (closed : Bool) :
    SessionState × List Output × Except CliError Unit :=
  match get_contact dir name with
  | .error e => (st, [], .error e)
  | .ok contact =>
    match sendResult with
    | .error e => (st, [], .error e)
    | .ok (Event.error message) => (st, [], .error (.command message))
    | .ok event =>
      let st1 :=
        match event with
        | Event.messageSent _ _ => { st with last_sender := some contact.name }
        | _ => st
      let outs1 :=
        match event with
        | Event.messageSent a t => [Output.msgSent a t]
        | _ => ([] : List Output)
      if wait then
        match cmd_wait_ack arrivals closed with
        | (outs2, .ok _) => (st1, outs1 ++ outs2, .ok ())
        | (outs2, .error e) => (st1, outs1 ++ outs2, .error e)
      else (st1, outs1, .ok ())

/-- The pending-entry search of `cmd_add_pending`
(src/src/commands/contacts.rs lines 405-414): first value whose stored key
starts with `pending_id` or whose name equals it case-insensitively. -/
def findPending (st : SessionState) (pending_id : Str) : Option PendingContact :=
  (valuesA st.pending_contacts).find? fun p =>
    startsWithL p.public_key pending_id ||
    (match p.name with
     | some n => eqIgnoreAsciiCase n pending_id
     | none => false)

/-- `CommandContext::cmd_add_pending` (src/src/commands/contacts.rs lines
400-466).  `updateResult` is the outcome of the `update_contact` device call
(an oracle); the parameter marshalling for that call (type code, flags, path
slice) only shapes the wire payload of the recorded `DeviceCall` and is
elided.  Returns the final state, the device calls performed, the outputs,
and the return value. -/
def cmd_add_pending (st : SessionState) (pending_id : Str)
    (updateResult : Except CliError Event) :
    SessionState × List DeviceCall × List Output × Except CliError Unit :=
  match findPending st pending_id with
  | none =>
    (st, [], [],
     .error (.contactNotFound
       (String.toList "Pending contact not found: " ++ pending_id)))
  | some pending =>
    match pending.contact with
    | none =>
      (st, [], [],
       .error (.invalidArgument (String.toList
         "Pending contact has no full data. Only contacts from NewContactAdvert can be added.")))
    | some contact =>
      match updateResult with
      | .error e => (st, [DeviceCall.updateContact contact], [], .error e)
      | .ok _ =>
        (remove_pending st pending.public_key,
         [DeviceCall.updateContact contact],
         [Output.okOut (String.toList "Added contact: " ++ contact.name)],
         .ok ())

/-- The session-state effect of `CommandContext::handle_message_event`
(src/src/commands/messaging.rs lines 287-353), the foreground subscription
handler: `ContactMessage` records the sender, `Advertisement` and
`NewContactAdvert` both go through the key-only `add_pending` (the latter
with the advertised name); every other arm leaves the state unchanged
(printing elided). -/
def handle_message_event (contacts : List Contact) (st : SessionState)
    (event : Event) : SessionState :=
  match event with
  | .contactMessage sender_pfx _ =>
    { st with last_sender := some (lookup_sender_name contacts sender_pfx) }
  | .advertisement key => add_pending st (toHex key) none
  | .newContactAdvert c => add_pending st (toHex c.public_key) (some c.name)
  | _ => st

/-- The session-state effect of `handle_background_event`
(src/src/interactive.rs lines 839-905), the background listener:
`ContactMessage` records the sender, `Advertisement` goes through the
key-only `add_pending`, and `NewContactAdvert` stores the full payload via
`add_pending_contact`; every other arm leaves the state unchanged. -/
def handle_background_event (contacts : List Contact) (st : SessionState)
    (event : Event) : SessionState :=
  match event with
  | .contactMessage sender_pfx _ =>
    { st with last_sender := some (lookup_sender_name contacts sender_pfx) }
  | .advertisement key => add_pending st (toHex key) none
  | .newContactAdvert c => add_pending_contact st c
  | _ => st

deriving instance DecidableEq for Except

/-- Inserting the same binding twice is the same as inserting it once. -/
theorem insertA_idem {β : Type} (k : Str) (v : β) (m : HMap β) :
    insertA k v (insertA k v m) = insertA k v m := by
  induction m with
  | nil => simp [insertA]
  | cons kv rest ih =>
    obtain ⟨k', v'⟩ := kv
    by_cases h : k' = k
    · simp [insertA, h]
    · simp [insertA, h, ih]

/-- Lookup after inserting the same key. -/
theorem getA_insertA_self {β : Type} (k : Str) (v : β) (m : HMap β) :
    getA k (insertA k v m) = some v := by
  induction m with
  | nil => simp [insertA, getA]
  | cons kv rest ih =>
    obtain ⟨k', v'⟩ := kv
    by_cases h : k' = k
    · simp [insertA, h, getA]
    · simp [insertA, h, getA, ih]

/-- Lookup after erasing the same key. -/
theorem getA_eraseA_self {β : Type} (k : Str) (m : HMap β) :
    getA k (eraseA k m) = none := by
  induction m with
  | nil => simp [eraseA, getA]
  | cons kv rest ih =>
    obtain ⟨k', v'⟩ := kv
    by_cases h : k' = k
    · simpa [eraseA, h] using ih
    · simpa [eraseA, getA, h] using ih

/-- Erasing a key twice is the same as erasing it once. -/
theorem eraseA_idem {β : Type} (k : Str) (m : HMap β) :
    eraseA k (eraseA k m) = eraseA k m := by
  simp [eraseA, List.filter_filter]

/-- A successful `recvLoop` result is the first matching arrival: it satisfies
the filter and every earlier arrival fails it. -/
theorem recvLoop_eq_some (filter : EventFilter) (l : List Event) (e : Event)
    (h : recvLoop filter l = some e) :
    filter e = true ∧
      ∃ pre post, l = pre ++ e :: post ∧ ∀ x ∈ pre, filter x = false := by
  induction l with
  | nil => simp [recvLoop] at h
  | cons a rest ih =>
    by_cases ha : filter a
    · simp [recvLoop, ha] at h
      subst h
      exact ⟨ha, [], rest, rfl, by simp⟩
    · simp [recvLoop, ha] at h
      obtain ⟨he, pre, post, hl, hpre⟩ := ih h
      refine ⟨he, a :: pre, post, by simp [hl], ?_⟩
      intro x hx
      rcases List.mem_cons.mp hx with hx | hx
      · simpa [hx] using ha
      · exact hpre x hx

/-- `recvLoop` finds nothing when no arrival matches. -/
theorem recvLoop_eq_none (filter : EventFilter) (l : List Event)
    (h : ∀ x ∈ l, filter x = false) : recvLoop filter l = none := by
  induction l with
  | nil => rfl
  | cons a rest ih =>
    have ha := h a (by simp)
    simp [recvLoop, ha]
    exact ih fun x hx => h x (by simp [hx])

/-- The value of `wait_for_event` does not depend on whether the upstream
stream closed: stream closure produces the same `Timeout` error as deadline
expiry. -/
theorem wait_for_event_closed_irrelevant (filter : EventFilter)
    (arrivals : List Event) (c₁ c₂ : Bool) :
    wait_for_event filter arrivals c₁ = wait_for_event filter arrivals c₂ := by
  unfold wait_for_event waitRace
  cases h : recvLoop filter arrivals with
  | some e => rfl
  | none => cases c₁ <;> cases c₂ <;> rfl

/-- `wait_for_event` succeeds exactly when the inner loop finds a match. -/
theorem wait_for_event_ok_iff (filter : EventFilter) (arrivals : List Event)
    (closed : Bool) (e : Event) :
    wait_for_event filter arrivals closed = .ok e ↔
      recvLoop filter arrivals = some e := by
  unfold wait_for_event waitRace
  cases h : recvLoop filter arrivals with
  | some x => simp
  | none => cases closed <;> simp

/-- `wait_for_event` fails with the `Timeout` error when the loop finds no
match, whether or not the stream closed. -/
theorem wait_for_event_error (filter : EventFilter) (arrivals : List Event)
    (closed : Bool) (h : recvLoop filter arrivals = none) :
    wait_for_event filter arrivals closed
      = .error (.timeout ['e','v','e','n','t']) := by
  unfold wait_for_event waitRace
  rw [h]
  cases closed <;> rfl

/-- A string without the separator splits into itself alone. -/
theorem splitOnC_single (sep : Char) (s : Str) (h : ∀ c ∈ s, c ≠ sep) :
    splitOnC sep s = [s] := by
  induction s with
  | nil => rfl
  | cons c rest ih =>
    have hc := h c (by simp)
    have : splitOnC sep rest = [rest] := ih fun x hx => h x (by simp [hx])
    simp [splitOnC, hc, this]

/-- A string without whitespace is fixed by `trimL`. -/
theorem trimL_id (s : Str) (h : ∀ c ∈ s, ¬ c.isWhitespace) : trimL s = s := by
  unfold trimL
  have h1 : s.dropWhile Char.isWhitespace = s := by
    cases s with
    | nil => rfl
    | cons c rest =>
      have := h c (by simp)
      simp [List.dropWhile, this]
  rw [h1]
  have h2 : s.reverse.dropWhile Char.isWhitespace = s.reverse := by
    cases hr : s.reverse with
    | nil => rfl
    | cons c rest =>
      have hc : c ∈ s := by
        have : c ∈ s.reverse := by simp [hr]
        simpa using this
      have := h c hc
      simp [List.dropWhile, this]
  rw [h2, List.reverse_reverse]

/-- Evaluating the clause parser on a single `u>` clause. -/
theorem parseClause_u_gt (now : Nat) (s : Str)
    (h : ∀ c ∈ s, ¬ c.isWhitespace) :
    parseClause now FilterCriteria.init ('u' :: '>' :: s)
      = { FilterCriteria.init with upd_after := some (now - parse_time_value s) } := by
  have ht : trimL ('u' :: '>' :: s) = 'u' :: '>' :: s := by
    apply trimL_id
    intro c hc
    rcases hc with _ | ⟨_, hc⟩
    · decide
    · rcases hc with _ | ⟨_, hc⟩
      · decide
      · exact h c hc
  unfold parseClause
  rw [ht]
  simp [stripPfx]

/-- Evaluating the clause parser on a single `u<` clause. -/
theorem parseClause_u_lt (now : Nat) (s : Str)
    (h : ∀ c ∈ s, ¬ c.isWhitespace) :
    parseClause now FilterCriteria.init ('u' :: '<' :: s)
      = { FilterCriteria.init with upd_before := some (now - parse_time_value s) } := by
  have ht : trimL ('u' :: '<' :: s) = 'u' :: '<' :: s := by
    apply trimL_id
    intro c hc
    rcases hc with _ | ⟨_, hc⟩
    · decide
    · rcases hc with _ | ⟨_, hc⟩
      · decide
      · exact h c hc
  unfold parseClause
  rw [ht]
  simp [stripPfx]

/-- The retain predicate when only `upd_after` is set: strictly newer than the
cutoff. -/
theorem matchesCriteria_upd_after (a : Nat) (c : Contact) :
    matchesCriteria ⟨none, none, none, none, some a⟩ c
      = decide (a < c.last_modified) := by
  by_cases hc : c.last_modified ≤ a
  · simp [matchesCriteria, hc, Nat.not_lt.mpr hc]
  · simp [matchesCriteria, hc, Nat.lt_of_not_le hc]

/-- The retain predicate when only `upd_before` is set: strictly older than the
cutoff. -/
theorem matchesCriteria_upd_before (b : Nat) (c : Contact) :
    matchesCriteria ⟨none, none, none, some b, none⟩ c
      = decide (c.last_modified < b) := by
  by_cases hc : c.last_modified < b
  · simp [matchesCriteria, hc, Nat.not_le.mpr hc]
  · simp [matchesCriteria, hc, Nat.le_of_not_lt hc]

/-- A single `u>` filter selects the contacts modified strictly after
`now - T` (with saturating subtraction), i.e. within the last `T` seconds. -/
theorem applyToMatches_u_gt (s : Str) (now : Nat) (dir : List Contact)
    (h : ∀ c ∈ s, ¬ c.isWhitespace ∧ c ≠ ',') :
    applyToMatches ('u' :: '>' :: s) now dir
      = dir.filter (fun c => decide (now - parse_time_value s < c.last_modified)) := by
  have hsplit : splitOnC ',' ('u' :: '>' :: s) = ['u' :: '>' :: s] := by
    apply splitOnC_single
    intro c hc
    rcases hc with _ | ⟨_, hc⟩
    · decide
    · rcases hc with _ | ⟨_, hc⟩
      · decide
      · exact (h c hc).2
  have hcrit : parseFilterCriteria now ('u' :: '>' :: s)
      = { FilterCriteria.init with upd_after := some (now - parse_time_value s) } := by
    unfold parseFilterCriteria
    rw [hsplit]
    simp [parseClause_u_gt now s (fun c hc => (h c hc).1)]
  unfold applyToMatches
  rw [hcrit]
  apply List.filter_congr
  intro c _
  exact matchesCriteria_upd_after _ c

/-- A single `u<` filter selects the contacts modified strictly before
`now - T` (with saturating subtraction), i.e. more than `T` seconds ago. -/
theorem applyToMatches_u_lt (s : Str) (now : Nat) (dir : List Contact)
    (h : ∀ c ∈ s, ¬ c.isWhitespace ∧ c ≠ ',') :
    applyToMatches ('u' :: '<' :: s) now dir
      = dir.filter (fun c => decide (c.last_modified < now - parse_time_value s)) := by
  have hsplit : splitOnC ',' ('u' :: '<' :: s) = ['u' :: '<' :: s] := by
    apply splitOnC_single
    intro c hc
    rcases hc with _ | ⟨_, hc⟩
    · decide
    · rcases hc with _ | ⟨_, hc⟩
      · decide
      · exact (h c hc).2
  have hcrit : parseFilterCriteria now ('u' :: '<' :: s)
      = { FilterCriteria.init with upd_before := some (now - parse_time_value s) } := by
    unfold parseFilterCriteria
    rw [hsplit]
    simp [parseClause_u_lt now s (fun c hc => (h c hc).1)]
  unfold applyToMatches
  rw [hcrit]
  apply List.filter_congr
  intro c _
  exact matchesCriteria_upd_before _ c
/-- C1, counterexample: with an empty arrival list, the wait whose subscription
reaches end-of-stream (`closed = true`) fails with exactly the same
`CliError.Timeout("event")` value as the wait whose deadline fires
(`closed = false`); the two conditions are not distinguishable, and `CliError`
has no stream-closed variant at all. -/
theorem C1_counterexample :
    wait_for_event ackFilter [] true = wait_for_event ackFilter [] false ∧
    wait_for_event ackFilter [] true
      = .error (CliError.timeout ['e','v','e','n','t']) := by
  decide

/-- C1 (amended): when the subscription yields no matching event, an in-flight
wait fails with `CliError.Timeout("event")` whether the upstream stream closed
or the timeout elapsed: the result of `wait_for_event` is independent of the
stream-closed condition, which is folded into the same timeout error. -/
theorem C1_stream_closed_not_distinguished :
    ∀ (filter : EventFilter) (arrivals : List Event) (c₁ c₂ : Bool),
      wait_for_event filter arrivals c₁ = wait_for_event filter arrivals c₂ ∧
      (recvLoop filter arrivals = none →
        wait_for_event filter arrivals c₁
          = .error (.timeout ['e','v','e','n','t'])) :=
  fun f a c₁ c₂ =>
    ⟨wait_for_event_closed_irrelevant f a c₁ c₂,
     fun h => wait_for_event_error f a c₁ h⟩

/-- C1, witness for the amended theorem at a concrete input. -/
theorem C1_witness :
    wait_for_event ackFilter [Event.loginFailed] true
      = .error (.timeout ['e','v','e','n','t']) :=
  (C1_stream_closed_not_distinguished ackFilter [Event.loginFailed] true false).2
    (by decide)

/-- C2, counterexample: at `now = 10000`, the filter `u>1h` selects a contact
whose `last_modified` is `9000` — a contact modified only 1000 seconds ago,
which is not "more than one hour before now" (its timestamp is not below the
cutoff `now - 3600 = 6400`).  The claimed reading of `u>T` is therefore false:
the code selects the recently-modified contacts, not the stale ones. -/
theorem C2_counterexample :
    parse_time_value (String.toList "1h") = 3600 ∧
    applyToMatches (String.toList "u>1h") 10000
        [⟨String.toList "Bob", [1], ContactType.node, -1, 9000⟩]
      = [⟨String.toList "Bob", [1], ContactType.node, -1, 9000⟩] ∧
    ¬ ((9000 : Nat) < 10000 - 3600) := by
  decide

/-- C2 (amended): for every duration suffix `s` (free of commas and
whitespace), directory and evaluation instant `now`, the clause `u>s` selects
exactly the contacts with `last_modified` strictly greater than
`now - parse_time_value s` (saturating subtraction) — i.e. those modified
within the last `T` — and `u<s` selects exactly those with `last_modified`
strictly less than `now - parse_time_value s` — i.e. those modified more than
`T` ago. -/
theorem C2_u_filter_semantics :
    ∀ (s : Str) (now : Nat) (dir : List Contact),
      (∀ c ∈ s, ¬ c.isWhitespace ∧ c ≠ ',') →
      applyToMatches ('u' :: '>' :: s) now dir
        = dir.filter
            (fun c => decide (now - parse_time_value s < c.last_modified)) ∧
      applyToMatches ('u' :: '<' :: s) now dir
        = dir.filter
            (fun c => decide (c.last_modified < now - parse_time_value s)) :=
  fun s now dir h =>
    ⟨applyToMatches_u_gt s now dir h, applyToMatches_u_lt s now dir h⟩

/-- C2, witness for the amended theorem at a concrete input. -/
theorem C2_witness :
    applyToMatches (String.toList "u>1h") 10000
        [⟨String.toList "Ann", [2], ContactType.node, -1, 9000⟩]
      = List.filter
          (fun c => decide (10000 - parse_time_value (String.toList "1h")
            < c.last_modified))
          [⟨String.toList "Ann", [2], ContactType.node, -1, 9000⟩] :=
  (C2_u_filter_semantics (String.toList "1h") 10000
    [⟨String.toList "Ann", [2], ContactType.node, -1, 9000⟩] (by decide)).1
/-- C3, counterexample: after the background listener stores a pending entry
with a full payload via `add_pending_contact`, a key-only `add_pending` call
for the same key (as issued by the foreground handlers) replaces the stored
payload with `None`: the previously-recorded full `Contact` is not preserved. -/
theorem C3_counterexample :
    (getA (toHex [222, 173]) (SessionState.pending_contacts
        (add_pending_contact SessionState.new
          ⟨String.toList "Alice", [222, 173], ContactType.node, -1, 5⟩))).map
        PendingContact.contact
      = some (some ⟨String.toList "Alice", [222, 173], ContactType.node, -1, 5⟩) ∧
    (getA (toHex [222, 173]) (SessionState.pending_contacts
        (add_pending
          (add_pending_contact SessionState.new
            ⟨String.toList "Alice", [222, 173], ContactType.node, -1, 5⟩)
          (toHex [222, 173]) (some (String.toList "Alice2"))))).map
        PendingContact.contact
      = some none := by
  decide

/-- C3 (amended): `add_pending(key, name)` upserts the pending entry for `key`
with the given name and always resets the stored full `Contact` payload to
`None`, discarding any previously-recorded payload; only `add_pending_contact`
stores a full payload (together with the contact's name). -/
theorem C3_add_pending_resets_payload :
    ∀ (st : SessionState) (k : Str) (n : Option Str) (c : Contact),
      getA k (add_pending st k n).pending_contacts = some ⟨k, n, none⟩ ∧
      getA (toHex c.public_key) (add_pending_contact st c).pending_contacts
        = some ⟨toHex c.public_key, some c.name, some c⟩ :=
  fun st k n c =>
    ⟨getA_insertA_self k _ st.pending_contacts,
     getA_insertA_self (toHex c.public_key) _ st.pending_contacts⟩

/-- C4, counterexample: `swap_contacts` is not idempotent: on a state with
current contact "a" and previous contact "b", applying it twice restores the
original state, which differs from applying it once. -/
theorem C4_counterexample :
    swap_contacts (swap_contacts
        ⟨none, some ['a'], some ['b'], none, [], [], none, []⟩)
      ≠ swap_contacts ⟨none, some ['a'], some ['b'], none, [], [], none, []⟩ := by
  decide

/-- C4 (amended): every listed Session State Store operation is total (each is
a total Lean function translated from panic-free Rust), and all of them are
idempotent under repeated identical calls except `swap_contacts`, which is an
involution (`swap ∘ swap = id`), not idempotent; the queries `is_logged_in` and
`get_timeout` do not mutate the state at all. -/
theorem C4_ops_idempotent_except_swap :
    ∀ (st : SessionState) (v : Option Str) (name k : Str) (b : Bool)
      (n : Option Str) (c : Contact) (t : Nat),
      set_contact (set_contact st v) v = set_contact st v ∧
      swap_contacts (swap_contacts st) = st ∧
      set_logged_in (set_logged_in st name b) name b = set_logged_in st name b ∧
      add_pending (add_pending st k n) k n = add_pending st k n ∧
      add_pending_contact (add_pending_contact st c) c = add_pending_contact st c ∧
      remove_pending (remove_pending st k) k = remove_pending st k ∧
      clear_pending (clear_pending st) = clear_pending st ∧
      set_timeout (set_timeout st name t) name t = set_timeout st name t := by
  intro st v name k b n c t
  refine ⟨?_, ?_, ?_, ?_, ?_, ?_, ?_, ?_⟩
  · unfold set_contact
    by_cases h : st.current_contact = v <;> simp [h]
  · cases st
    simp [swap_contacts]
  · simp [set_logged_in, insertA_idem]
  · simp [add_pending, insertA_idem]
  · simp [add_pending_contact, insertA_idem]
  · simp [remove_pending, eraseA_idem]
  · simp [clear_pending]
  · simp [set_timeout, insertA_idem]
/-- Directory entry used by the C5 resolver examples: contact "Alice" with
public key bytes `de ad be ef` (hex string "deadbeef"). -/
def aliceContact : Contact :=
  ⟨String.toList "Alice", [222, 173, 190, 239], ContactType.node, -1, 0⟩

/-- C5: contact resolution tries an exact case-insensitive name match first,
then (only when no name matches) a case-insensitive hex public-key-prefix
match, returning the first matching contact under the rule that fires, and
fails with `ContactNotFound` when neither rule matches; in particular, on a
directory holding "Alice" with key `deadbeef`, resolving "alice", "ALICE" and
"deadbe" each return that contact and resolving "bob" fails. -/
theorem C5_resolver_order :
    (∀ (dir : List Contact) (q : Str) (c : Contact),
       dir.find? (fun c => eqIgnoreAsciiCase c.name q) = some c →
       get_contact dir q = .ok c) ∧
    (∀ (dir : List Contact) (q : Str) (c : Contact),
       dir.find? (fun c => eqIgnoreAsciiCase c.name q) = none →
       dir.find? (fun c => startsWithL (toHex c.public_key) (toLowercase q))
         = some c →
       get_contact dir q = .ok c) ∧
    (∀ (dir : List Contact) (q : Str),
       dir.find? (fun c => eqIgnoreAsciiCase c.name q) = none →
       dir.find? (fun c => startsWithL (toHex c.public_key) (toLowercase q))
         = none →
       get_contact dir q = .error (.contactNotFound q)) ∧
    get_contact [aliceContact] (String.toList "alice") = .ok aliceContact ∧
    get_contact [aliceContact] (String.toList "ALICE") = .ok aliceContact ∧
    get_contact [aliceContact] (String.toList "deadbe") = .ok aliceContact ∧
    get_contact [aliceContact] (String.toList "bob")
      = .error (.contactNotFound (String.toList "bob")) := by
  refine ⟨?_, ?_, ?_, by decide, by decide, by decide, by decide⟩
  · intro dir q c h
    unfold get_contact
    rw [h]
  · intro dir q c h1 h2
    simp [get_contact, h1, h2]
  · intro dir q h1 h2
    simp [get_contact, h1, h2]

/-- C5, witness: the amended-free theorem applied at the concrete directory,
resolving by key prefix after the name rule fails. -/
theorem C5_witness :
    get_contact [aliceContact] (String.toList "deadbe") = .ok aliceContact :=
  C5_resolver_order.2.1 [aliceContact] (String.toList "deadbe") aliceContact
    (by decide) (by decide)

/-- C6: a wait never returns an event failing its filter: any successful
result is the first arrival satisfying the filter (all earlier arrivals fail
it), and when no arrival before the deadline matches, the wait fails with the
`Timeout` error rather than returning a value. -/
theorem C6_wait_filter_and_first_match :
    ∀ (filter : EventFilter) (arrivals : List Event) (closed : Bool),
      (∀ e, wait_for_event filter arrivals closed = .ok e →
         filter e = true ∧
         ∃ pre post, arrivals = pre ++ e :: post ∧ ∀ x ∈ pre, filter x = false) ∧
      ((∀ x ∈ arrivals, filter x = false) →
         wait_for_event filter arrivals closed
           = .error (.timeout ['e','v','e','n','t'])) := by
  intro f a closed
  constructor
  · intro e he
    exact recvLoop_eq_some f a e ((wait_for_event_ok_iff f a closed e).mp he)
  · intro h
    exact wait_for_event_error f a closed (recvLoop_eq_none f a h)

/-- C6, witness: with only a non-matching arrival and the stream open, the
wait fails with the `Timeout` error. -/
theorem C6_witness :
    wait_for_event ackFilter [Event.loginSuccess] false
      = .error (.timeout ['e','v','e','n','t']) :=
  (C6_wait_filter_and_first_match ackFilter [Event.loginSuccess] false).2
    (by decide)
/-- The dispatch loop visits exactly the matched contacts, in order,
whatever the per-contact outcomes are. -/
theorem applyLoop_map_fst (cmdLine : Str) (o : ApplyOracles)
    (l : List Contact) : (applyLoop cmdLine o l).map (·.1) = l := by
  induction l with
  | nil => rfl
  | cons c rest ih => simp [applyLoop, ih]

/-- Every matched contact appears in the dispatch trace with its outcome. -/
theorem applyLoop_mem (cmdLine : Str) (o : ApplyOracles) (l : List Contact)
    (c : Contact) (h : c ∈ l) :
    (c, dispatchContact cmdLine o c) ∈ applyLoop cmdLine o l := by
  induction l with
  | nil => simp at h
  | cons a rest ih =>
    rcases List.mem_cons.mp h with h | h
    · subst h
      simp [applyLoop]
    · simp [applyLoop, ih h]

/-- C7: bulk dispatch attempts every matched contact in snapshot order
(the trace lists exactly the matches, in order, whatever the sub-command
outcomes), per-contact failures are recorded without making the overall
operation fail (the result is always `Ok(())`), a contact that is neither a
`Repeater` nor a `Room` is skipped with a warning when given an arbitrary
repeater sub-command, and the reported count is the number of matched
contacts regardless of per-contact outcomes. -/
theorem C7_bulk_dispatch_isolation :
    ∀ (filter : Str) (commands : List Str) (now : Nat)
      (contacts : List Contact) (o : ApplyOracles),
      (cmd_apply_to filter commands now contacts o).result = .ok () ∧
      (cmd_apply_to filter commands now contacts o).count
        = (applyToMatches filter now contacts).length ∧
      (cmd_apply_to filter commands now contacts o).trace.map (·.1)
        = applyToMatches filter now contacts ∧
      (∀ c ∈ applyToMatches filter now contacts,
         c.device_type ≠ ContactType.repeater →
         c.device_type ≠ ContactType.room →
         joinWords commands ≠ String.toList "remove_contact" →
         startsWithL (joinWords commands) (String.toList "send ") = false →
         (joinWords commands).head? ≠ some '"' →
         (c, ApplyOutcome.skippedWarning)
           ∈ (cmd_apply_to filter commands now contacts o).trace) := by
  intro filter commands now contacts o
  refine ⟨rfl, rfl, applyLoop_map_fst _ _ _, ?_⟩
  intro c hc h1 h2 h3 h4 h5
  have h3a : joinWords commands
      ≠ ['r','e','m','o','v','e','_','c','o','n','t','a','c','t'] := h3
  have h4a : startsWithL (joinWords commands) ['s','e','n','d',' '] = false := h4
  have hd : dispatchContact (joinWords commands) o c = .skippedWarning := by
    simp [dispatchContact, h1, h2, h3a, h4a, h5]
  have hm := applyLoop_mem (joinWords commands) o _ c hc
  rw [hd] at hm
  exact hm

/-- C7, witness: a plain node contact matched by the `all` filter and given an
arbitrary repeater sub-command appears in the trace as skipped-with-warning. -/
theorem C7_witness :
    (⟨String.toList "N", [7], ContactType.node, 0, 0⟩,
       ApplyOutcome.skippedWarning)
      ∈ (cmd_apply_to (String.toList "all") [String.toList "reboot"] 50
          [⟨String.toList "N", [7], ContactType.node, 0, 0⟩]
          ⟨fun _ => .ok (), fun _ _ => .ok (), fun _ _ => .ok ()⟩).trace :=
  (C7_bulk_dispatch_isolation (String.toList "all") [String.toList "reboot"] 50
      [⟨String.toList "N", [7], ContactType.node, 0, 0⟩]
      ⟨fun _ => .ok (), fun _ _ => .ok (), fun _ _ => .ok ()⟩).2.2.2
    ⟨String.toList "N", [7], ContactType.node, 0, 0⟩
    (by decide) (by decide) (by decide) (by decide) (by decide) (by decide)
/-- C8: when the post-login wait for a `LoginSuccess`/`LoginFailed` response
finds no login event before the deadline, `cmd_login` prints the timeout as a
warning after the sent notice, returns `Ok(())` rather than an error, and
leaves the session state exactly as it was (in particular the login flag for
the contact is untouched); and the final state can only have the contact's
login flag newly set to true when the wait actually returned `LoginSuccess`. -/
theorem C8_login_timeout_soft :
    ∀ (st : SessionState) (dir : List Contact) (name pw : Str) (a t : Nat)
      (arrivals : List Event) (closed : Bool) (contact : Contact),
      get_contact dir name = .ok contact →
      (recvLoop loginFilter arrivals = none →
        cmd_login st dir name pw (.ok (.messageSent a t)) arrivals closed
          = (st, [.msgSent a t,
                  .warnOut (String.toList "Login response timeout")], .ok ())) ∧
      (is_logged_in
          (cmd_login st dir name pw (.ok (.messageSent a t)) arrivals closed).1
          contact.name = true →
        is_logged_in st contact.name = true ∨
          wait_for_event loginFilter arrivals closed = .ok Event.loginSuccess) := by
  intro st dir name pw a t arrivals closed contact hget
  constructor
  · intro hnone
    have hw := wait_for_event_error loginFilter arrivals closed hnone
    simp [cmd_login, hget, hw]
  · cases hw : wait_for_event loginFilter arrivals closed with
    | error e =>
      simp [cmd_login, hget, hw]
    | ok ev =>
      cases ev <;> simp [cmd_login, hget, hw]

/-- C8, witness: a concrete login whose response wait delivers nothing ends
with the warning, an `Ok` result, and an unchanged session state. -/
theorem C8_witness :
    cmd_login SessionState.new
        [⟨String.toList "Rep", [9], ContactType.repeater, 0, 0⟩]
        (String.toList "rep") (String.toList "pw")
        (.ok (.messageSent 1 2)) [] false
      = (SessionState.new,
         [.msgSent 1 2, .warnOut (String.toList "Login response timeout")],
         .ok ()) :=
  (C8_login_timeout_soft SessionState.new
      [⟨String.toList "Rep", [9], ContactType.repeater, 0, 0⟩]
      (String.toList "rep") (String.toList "pw") 1 2 [] false
      ⟨String.toList "Rep", [9], ContactType.repeater, 0, 0⟩
      (by decide)).1 (by decide)

/-- C9: in the send-then-wait-for-ack flow, when no acknowledgement arrives
before the deadline (and the stream stays open), `cmd_msg` with `wait` set
fails with the `Timeout` error and the resulting session state is exactly the
post-send state: `last_sender` still holds the contact recorded by the send,
and the timed-out wait performs no session-state mutation. -/
theorem C9_msg_ack_timeout :
    ∀ (st : SessionState) (dir : List Contact) (name : Str) (msg : List Str)
      (a t : Nat) (arrivals : List Event) (contact : Contact),
      get_contact dir name = .ok contact →
      recvLoop ackFilter arrivals = none →
      cmd_msg st dir name msg true (.ok (.messageSent a t)) arrivals false
        = ({ st with last_sender := some contact.name },
           [Output.msgSent a t],
           .error (.timeout ['e','v','e','n','t'])) := by
  intro st dir name msg a t arrivals contact hget hnone
  have hw := wait_for_event_error ackFilter arrivals false hnone
  simp [cmd_msg, cmd_wait_ack, hget, hw]

/-- C9, witness: a concrete send to "Bob" followed by a wait that sees no
acknowledgement: the error is `Timeout` and `last_sender` keeps the value the
send stored. -/
theorem C9_witness :
    cmd_msg SessionState.new
        [⟨String.toList "Bob", [3], ContactType.node, -1, 0⟩]
        (String.toList "bob") [String.toList "hi"] true
        (.ok (.messageSent 4 5)) [Event.advertisement [1]] false
      = ({ SessionState.new with last_sender := some (String.toList "Bob") },
         [Output.msgSent 4 5],
         .error (.timeout ['e','v','e','n','t'])) :=
  C9_msg_ack_timeout SessionState.new
    [⟨String.toList "Bob", [3], ContactType.node, -1, 0⟩]
    (String.toList "bob") [String.toList "hi"] 4 5 [Event.advertisement [1]]
    ⟨String.toList "Bob", [3], ContactType.node, -1, 0⟩
    (by decide) (by decide)
/-- C10: a pending entry whose stored record carries no full `Contact` payload
cannot be approved: `cmd_add_pending` fails with the `InvalidArgument` error,
performs no device call and leaves the state unchanged; every entry created by
the key-only `add_pending` path — including those the foreground message
handler creates for `Advertisement` and `NewContactAdvert` events — carries no
payload, while the background listener's `NewContactAdvert` path stores the
full payload via `add_pending_contact`; and a successful approval issues the
`update_contact` device call and removes the entry from the pending map. -/
theorem C10_pending_approval_requires_payload :
    ∀ (st : SessionState) (pid k : Str) (n : Option Str)
      (upd : Except CliError Event) (p : PendingContact) (c : Contact)
      (dir : List Contact) (key : List Nat),
      (findPending st pid = some p → p.contact = none →
        cmd_add_pending st pid upd
          = (st, [], [],
             .error (.invalidArgument (String.toList
               "Pending contact has no full data. Only contacts from NewContactAdvert can be added.")))) ∧
      getA k (add_pending st k n).pending_contacts = some ⟨k, n, none⟩ ∧
      getA (toHex key)
          (handle_message_event dir st (.advertisement key)).pending_contacts
        = some ⟨toHex key, none, none⟩ ∧
      getA (toHex c.public_key)
          (handle_message_event dir st (.newContactAdvert c)).pending_contacts
        = some ⟨toHex c.public_key, some c.name, none⟩ ∧
      getA (toHex c.public_key)
          (handle_background_event dir st (.newContactAdvert c)).pending_contacts
        = some ⟨toHex c.public_key, some c.name, some c⟩ ∧
      (∀ ev, findPending st pid = some p → p.contact = some c → upd = .ok ev →
        cmd_add_pending st pid upd
          = (remove_pending st p.public_key,
             [DeviceCall.updateContact c],
             [Output.okOut (String.toList "Added contact: " ++ c.name)],
             .ok ()) ∧
        getA p.public_key (remove_pending st p.public_key).pending_contacts
          = none) := by
  intro st pid k n upd p c dir key
  refine ⟨?_, getA_insertA_self k _ _, getA_insertA_self _ _ _,
    getA_insertA_self _ _ _, getA_insertA_self _ _ _, ?_⟩
  · intro hfind hnone
    simp [cmd_add_pending, hfind, hnone]
  · intro ev hfind hfull hupd
    subst hupd
    exact ⟨by simp [cmd_add_pending, hfind, hfull], getA_eraseA_self _ _⟩

/-- C10, witness: approving a key-only pending entry (as created for a bare
advertisement) fails with `InvalidArgument`, performs no device call, and
leaves the state unchanged. -/
theorem C10_witness :
    cmd_add_pending
        (add_pending SessionState.new (String.toList "ab")
          (some (String.toList "Eve")))
        (String.toList "ab") (.ok Event.okEvent)
      = (add_pending SessionState.new (String.toList "ab")
           (some (String.toList "Eve")),
         [], [],
         .error (.invalidArgument (String.toList
           "Pending contact has no full data. Only contacts from NewContactAdvert can be added."))) :=
  (C10_pending_approval_requires_payload
      (add_pending SessionState.new (String.toList "ab")
        (some (String.toList "Eve")))
      (String.toList "ab") [] none (.ok Event.okEvent)
      ⟨String.toList "ab", some (String.toList "Eve"), none⟩
      ⟨[], [], ContactType.unknown, 0, 0⟩ [] []).1
    (by decide) (by decide)
